import Mathlib

/-!
Shallow embedding of `models.py` from the disease-detection repository.

The module defines four network constructors (`vgg19`, `vgg19_fc7_to_prob`,
`vgg19_fc8_to_prob`, `jeffrey_df`) that build a dict of lasagne layers, and a
utility `load_weights` that loads pretrained weights from a `.npz` or `.pkl`
file and assigns them positionally to the parameters of all layers below a
given layer via lasagne's `set_all_param_values`.

Layers are modelled as a named assoc list in python-dict insertion order;
parameter stores are functions from parameter references (layer name, "W"/"b")
to arrays; file contents are modelled abstractly (an `.npz` archive is a list
of named members, a pickle file holds a python object).
-/

/-- A numpy array: a shape and flat data. -/
structure NDArray where
  shape : List Nat
  data : List Int
deriving DecidableEq, Repr

/-- Python exceptions that the weight-loading code can surface. -/
inductive Err where
  /-- lasagne `set_all_param_values`: `len(params) != len(values)`. -/
  | valueErrorCount (got : Nat) (expected : Nat)
  /-- lasagne `set_all_param_values`: a parameter/value shape mismatch. -/
  | valueErrorShape (pshape : List Nat) (vshape : List Nat)
  /-- iterating a dict passed where a list of arrays was expected yields
      string keys, which have no `.shape`. -/
  | attributeError
  /-- subscripting a non-dict unpickled object with a string key. -/
  | typeError
  /-- missing key in an npz archive or a dict. -/
  | keyError (key : String)
  /-- the file could not be opened / parsed by `np.load` or `pickle.load`. -/
  | ioError (filename : String)
  /-- `load_weights` fallthrough: `Format of {filename} not known`. -/
  | notImplementedError (msg : String)
deriving DecidableEq, Repr

/-- An unpickled python object, restricted to the shapes of data the
weight files hold: a dict with string keys, or a list of numpy arrays. -/
inductive PyObj where
  | dict (entries : List (String × PyObj))
  | arrs (values : List NDArray)

/-- Content of a file on disk, as seen after a successful parse:
an `.npz` archive (named members), or a pickle containing an object. -/
inductive FileData where
  | npzFile (members : List (String × NDArray))
  | pklFile (obj : PyObj)

/-- A file system: maps a filename to its (parsed) content, if readable. -/
def FileSys : Type := String → Option FileData

/-- A parameter reference: layer name together with `"W"` or `"b"`. -/
abbrev ParamRef := String × String

/-- The state of all theano shared variables holding network parameters. -/
def PState : Type := ParamRef → NDArray

/-- Pointwise update of a parameter store (a theano `p.set_value(v)`). -/
def PState.set (st : PState) (r : ParamRef) (v : NDArray) : PState :=
  fun q => if q = r then v else st q

/-- Dimension entry of a lasagne `ReshapeLayer` target shape. -/
inductive RDim where
  | minusOne
  | dim (n : Nat)
deriving DecidableEq, Repr

/-- Padding mode of a convolution layer. -/
inductive Pad where
  | num (n : Nat)
  | same
deriving DecidableEq, Repr

/-- Nonlinearities used in `models.py`. -/
inductive NonlinK where
  | rectify
  | linear
  | softmax
  | leakyRectify (leakiness : ℚ)
deriving DecidableEq, Repr

/-- Weight/bias initialization schemes used in `models.py`. -/
inductive Init where
  | glorotUniform
  | constantI (c : ℚ)
  | orthogonal (gain : ℚ)
deriving DecidableEq, Repr

/-- A lasagne layer, keeping the attributes `models.py` sets: the incoming
layer name(s), shape parameters, initializers and nonlinearity. -/
inductive Layer where
  | inputL (shape : List (Option Nat)) (name : Option String)
  | convL (incoming : String) (numFilters : Nat) (filterSize : Nat)
      (stride : Nat × Nat) (pad : Pad) (untieBiases : Bool)
      (w : Init) (b : Init) (nonlin : NonlinK)
  | poolL (incoming : String) (poolSize : Nat) (stride : Nat × Nat)
      (name : Option String)
  | denseL (incoming : String) (numUnits : Nat) (w : Init) (b : Init)
      (nonlin : NonlinK) (name : Option String)
  | dropoutL (incoming : String) (p : ℚ)
  | nonlinearityL (incoming : String) (nonlin : NonlinK)
  | featurePoolL (incoming : String) (poolSize : Nat)
  | concatL (incomings : List String)
  | reshapeL (incoming : String) (shape : List RDim)
deriving DecidableEq, Repr

/-- A network: the python dict `net`, an assoc list in insertion order. -/
abbrev Net := List (String × Layer)

/-- Names of the incoming layers of a layer. -/
def parentsOf : Layer → List String
  | .inputL _ _ => []
  | .convL inc _ _ _ _ _ _ _ _ => [inc]
  | .poolL inc _ _ _ => [inc]
  | .denseL inc _ _ _ _ _ => [inc]
  | .dropoutL inc _ => [inc]
  | .nonlinearityL inc _ => [inc]
  | .featurePoolL inc _ => [inc]
  | .concatL incs => incs
  | .reshapeL inc _ => [inc]

/-- The parameters a layer registers, in registration order (`W` then `b`);
only convolution and dense layers have parameters in `models.py`'s nets. -/
def paramRefs (name : String) : Layer → List ParamRef
  | .convL _ _ _ _ _ _ _ _ _ => [(name, "W"), (name, "b")]
  | .denseL _ _ _ _ _ _ => [(name, "W"), (name, "b")]
  | _ => []

/-- Look a layer up by name. -/
def lookupLayer (net : Net) (name : String) : Option Layer :=
  (net.find? (fun e => e.1 == name)).map (fun e => e.2)

/-- lasagne `get_all_layers(layer)`: the names of all layers at or below the
layers on the stack, accumulated in lasagne's topological order (depth-first,
parents before children, a concat's parents in their given order). Lasagne
iterates with an explicit queue; `fuel` bounds the iteration, and
`2 * net.length + 1` suffices for the tree-shaped graphs `models.py` builds,
which visit each layer exactly once (so no dedup step is needed). -/
def get_all_layers (net : Net) : Nat → List String → List String →
    List String
  | 0, _, acc => acc
  | _ + 1, [], acc => acc
  | fuel + 1, name :: stack, acc =>
      match lookupLayer net name with
      | some l =>
          get_all_layers net fuel ((parentsOf l).reverse ++ stack)
            (name :: acc)
      | none => get_all_layers net fuel stack acc

/-- lasagne `get_all_params(layer)`: the parameters of all layers at or below
the named layer, in the fixed traversal order (`W` before `b` per layer). -/
def get_all_params (net : Net) (name : String) : List ParamRef :=
  (get_all_layers net (2 * net.length + 1) [name] []).flatMap
    (fun ln =>
      match lookupLayer net ln with
      | some l => paramRefs ln l
      | none => [])

/-- The per-pair loop of lasagne `set_all_param_values`: for each parameter
and value in order, raise a shape-mismatch ValueError if the current value's
shape differs, otherwise set the parameter. Parameters set before a mismatch
stay set. -/
def setLoop : List ParamRef → List NDArray → PState → PState × Option Err
  | r :: rs, v :: vs, st =>
      if (st r).shape = v.shape then
        setLoop rs vs (st.set r v)
      else
        (st, some (.valueErrorShape (st r).shape v.shape))
  | _, _, st => (st, none)

/-- lasagne `set_all_param_values(layer, values)`: checks the count of values
against the parameters of all layers at or below `layer`, then assigns
positionally with a per-pair shape check. -/
def set_all_param_values (net : Net) (name : String) (values : List NDArray)
    (st : PState) : PState × Option Err :=
  let params := get_all_params net name
  if params.length = values.length then
    setLoop params values st
  else
    (st, some (.valueErrorCount values.length params.length))

/-- `set_all_param_values` applied to an arbitrary unpickled object, as
`jeffrey_df` does: a list of arrays behaves as usual; a dict passes the
`len` check when its size matches but then iterates string keys, which
fail the `.shape` attribute access. -/
def set_all_param_values_obj (net : Net) (name : String) (obj : PyObj)
    (st : PState) : PState × Option Err :=
  match obj with
  | .arrs vs => set_all_param_values net name vs st
  | .dict entries =>
      if (get_all_params net name).length = entries.length then
        (st, some .attributeError)
      else
        (st, some (.valueErrorCount entries.length
          (get_all_params net name).length))

/-- Lookup of a member of an `.npz` archive by name (numpy `f[key]`). -/
def npzLookup (members : List (String × NDArray)) (key : String) :
    Option NDArray :=
  (members.find? (fun m => m.1 == key)).map (fun m => m.2)

/-- Lookup in an unpickled dict (python `model[key]`). -/
def pyLookup (entries : List (String × PyObj)) (key : String) : Option PyObj :=
  (entries.find? (fun e => e.1 == key)).map (fun e => e.2)

/-- The list comprehension `[f['arr_%d' % i] for i in range(len(f.files))]`,
read from index `i` for `k` more indices: stops with a KeyError at the first
missing index. -/
def collectFrom (members : List (String × NDArray)) : Nat → Nat →
    Except Err (List NDArray)
  | _, 0 => .ok []
  | i, k + 1 =>
      match npzLookup members ("arr_" ++ toString i) with
      | some a =>
          match collectFrom members (i + 1) k with
          | .ok rest => .ok (a :: rest)
          | .error e => .error e
      | none => .error (.keyError ("arr_" ++ toString i))

/-- `[f['arr_%d' % i] for i in range(len(f.files))]`. -/
def collectNpz (members : List (String × NDArray)) : Except Err (List NDArray) :=
  collectFrom members 0 members.length

/-- Python `str.endswith(post)`: suffix test on the character data. -/
def pyEndsWith (s post : String) : Bool :=
  s.data.drop (s.data.length - post.data.length) == post.data

/-- Result of running a weight-loading step: the parameter store afterwards,
the exception if one was raised, the files that were opened, and whether
`set_all_param_values` was reached. -/
structure LoadResult where
  params : PState
  error : Option Err
  opened : List String
  setCalled : Bool

/-- `load_weights(layer, filename)` from `models.py`: dispatch on the
filename suffix; `.npz` reads members `arr_0, arr_1, ...` in index order;
`.pkl` unpickles a dict and takes its `'param values'` entry; any other
suffix raises NotImplementedError without touching any file. -/
def load_weights (net : Net) (name : String) (filename : String)
    (fs : FileSys) (st : PState) : LoadResult :=
  if pyEndsWith filename ".npz" then
    match fs filename with
    | some (.npzFile members) =>
        match collectNpz members with
        | .ok vals =>
            let r := set_all_param_values net name vals st
            ⟨r.1, r.2, [filename], true⟩
        | .error e => ⟨st, some e, [filename], false⟩
    | _ => ⟨st, some (.ioError filename), [filename], false⟩
  else if pyEndsWith filename ".pkl" then
    match fs filename with
    | some (.pklFile obj) =>
        match obj with
        | .dict entries =>
            match pyLookup entries "param values" with
            | some v =>
                let r := set_all_param_values_obj net name v st
                ⟨r.1, r.2, [filename], true⟩
            | none => ⟨st, some (.keyError "param values"), [filename], false⟩
        | .arrs _ => ⟨st, some .typeError, [filename], false⟩
    | _ => ⟨st, some (.ioError filename), [filename], false⟩
  else
    ⟨st, some (.notImplementedError
      ("Format of " ++ filename ++ " not known")), [], false⟩

/-- Ceiling division, as in lasagne's output-length helpers. -/
def ceilDiv (a b : Nat) : Nat := (a + b - 1) / b

/-- lasagne `conv_output_length`: with integer pad `p` the pre-stride length
is `input + 2*p - filter + 1`; with `'same'` it is `input`; then the stride
is applied by ceiling division. -/
def convOut (fsize stride : Nat) (pad : Pad) : Option Nat → Option Nat
  | some l =>
      some (ceilDiv (match pad with
        | .same => l
        | .num p => l + 2 * p - fsize + 1) stride)
  | none => none

/-- lasagne `pool_output_length` with pad 0: `ceil((input - size + 1)/stride)`. -/
def poolOut (size stride : Nat) : Option Nat → Option Nat
  | some l => some (ceilDiv (l - size + 1) stride)
  | none => none

/-- Merging one (non-axis) dimension of concatenated input shapes: a known
size wins over `None`; equal known sizes agree. -/
def mergeDim : Option Nat → Option Nat → Option Nat
  | none, b => b
  | some a, none => some a
  | some a, some b => if a = b then some a else none

/-- ConcatLayer output shape along axis 1: sum of the axis dimensions (None
if any is unknown), other dimensions merged. -/
def concatShape : List (List (Option Nat)) → Option (List (Option Nat))
  | [] => none
  | s :: ss =>
      ss.foldl (fun acc t =>
        match acc, t with
        | some (b0 :: d0 :: r0), b1 :: d1 :: _ =>
            some (mergeDim b0 b1 ::
              (match d0, d1 with
               | some x, some y => some (x + y)
               | _, _ => none) :: r0)
        | _, _ => none) (some s)

/-- Product of the known dimensions of a shape; `none` if any is unknown. -/
def prodShape : List (Option Nat) → Option Nat
  | [] => some 1
  | d :: rest =>
      match d, prodShape rest with
      | some n, some m => some (n * m)
      | _, _ => none

/-- Product of the explicit entries of a reshape target. -/
def prodSpec (spec : List RDim) : Nat :=
  spec.foldl (fun acc d => match d with | .dim n => acc * n | .minusOne => acc) 1

/-- ReshapeLayer output shape: explicit dimensions as given; a `-1` entry is
inferred from the total input size when it is fully known, else `None`. -/
def reshapeOut (spec : List RDim) (s : List (Option Nat)) : List (Option Nat) :=
  spec.map (fun d =>
    match d with
    | .dim n => some n
    | .minusOne =>
        match prodShape s with
        | some t => some (t / prodSpec spec)
        | none => none)

/-- lasagne `layer.output_shape`, computed recursively from the input
layer(s) exactly as lasagne's `get_output_shape_for` chain does; `fuel`
bounds the recursion depth (`net.length` always suffices because every layer
in `models.py` is inserted after its parents). -/
def shapeGo (net : Net) : Nat → String → Option (List (Option Nat))
  | 0, _ => none
  | fuel + 1, name =>
      match lookupLayer net name with
      | some (.inputL s _) => some s
      | some (.convL inc nf fsize stride pad _ _ _ _) =>
          match shapeGo net fuel inc with
          | some [b, _, hh, ww] =>
              some [b, some nf, convOut fsize stride.1 pad hh,
                convOut fsize stride.2 pad ww]
          | _ => none
      | some (.poolL inc size stride _) =>
          match shapeGo net fuel inc with
          | some [b, c, hh, ww] =>
              some [b, c, poolOut size stride.1 hh, poolOut size stride.2 ww]
          | _ => none
      | some (.denseL inc units _ _ _ _) =>
          match shapeGo net fuel inc with
          | some (b :: _) => some [b, some units]
          | _ => none
      | some (.dropoutL inc _) => shapeGo net fuel inc
      | some (.nonlinearityL inc _) => shapeGo net fuel inc
      | some (.featurePoolL inc size) =>
          match shapeGo net fuel inc with
          | some (b :: d :: rest) =>
              some (b :: (d.map (fun n => n / size)) :: rest)
          | _ => none
      | some (.concatL incs) =>
          match incs.mapM (fun inc => shapeGo net fuel inc) with
          | some ss => concatShape ss
          | none => none
      | some (.reshapeL inc spec) =>
          match shapeGo net fuel inc with
          | some s => some (reshapeOut spec s)
          | none => none
      | none => none

/-- lasagne `layer.output_shape` for the named layer of a net. -/
def output_shape (net : Net) (name : String) : Option (List (Option Nat)) :=
  shapeGo net net.length name

/-- One dimension of a layer's output shape. -/
def outDim (net : Net) (name : String) (i : Nat) : Option (Option Nat) :=
  (output_shape net name).bind (fun s => s.get? i)

/-- A VGG ConvLayer call `ConvLayer(parent, nf, 3, pad=1)` with lasagne
defaults: stride 1, tied biases, GlorotUniform W, Constant(0) b, rectify. -/
def vggConv (inc : String) (nf : Nat) : Layer :=
  .convL inc nf 3 (1, 1) (.num 1) false .glorotUniform (.constantI 0) .rectify

/-- A VGG dense layer `DenseLayer(parent, num_units=u)` with defaults. -/
def vggDense (inc : String) (u : Nat) (nl : NonlinK) : Layer :=
  .denseL inc u .glorotUniform (.constantI 0) nl none

/-- The layer dict built by `vgg19` (construction only, no weight loading). -/
def vgg19_net (n_classes : Nat) (p : Option ℚ) : Net :=
  let base : Net := [
    ("input", .inputL [none, some 3, some 224, some 224] none),
    ("conv1_1", vggConv "input" 64),
    ("conv1_2", vggConv "conv1_1" 64),
    ("pool1", .poolL "conv1_2" 2 (2, 2) none),
    ("conv2_1", vggConv "pool1" 128),
    ("conv2_2", vggConv "conv2_1" 128),
    ("pool2", .poolL "conv2_2" 2 (2, 2) none),
    ("conv3_1", vggConv "pool2" 256),
    ("conv3_2", vggConv "conv3_1" 256),
    ("conv3_3", vggConv "conv3_2" 256),
    ("conv3_4", vggConv "conv3_3" 256),
    ("pool3", .poolL "conv3_4" 2 (2, 2) none),
    ("conv4_1", vggConv "pool3" 512),
    ("conv4_2", vggConv "conv4_1" 512),
    ("conv4_3", vggConv "conv4_2" 512),
    ("conv4_4", vggConv "conv4_3" 512),
    ("pool4", .poolL "conv4_4" 2 (2, 2) none),
    ("conv5_1", vggConv "pool4" 512),
    ("conv5_2", vggConv "conv5_1" 512),
    ("conv5_3", vggConv "conv5_2" 512),
    ("conv5_4", vggConv "conv5_3" 512),
    ("pool5", .poolL "conv5_4" 2 (2, 2) none),
    ("fc6", vggDense "pool5" 4096 .rectify)]
  let tail : Net :=
    match p with
    | none =>
        [("fc7", vggDense "fc6" 4096 .rectify),
         ("fc8", vggDense "fc7" n_classes .linear)]
    | some q =>
        [("dropout1", .dropoutL "fc6" q),
         ("fc7", vggDense "dropout1" 4096 .rectify),
         ("dropout2", .dropoutL "fc7" q),
         ("fc8", vggDense "dropout2" n_classes .linear)]
  base ++ tail ++ [("prob", .nonlinearityL "fc8" .softmax)]

/-- The layer dict built by `vgg19_fc7_to_prob` (construction only). -/
def vgg19_fc7_net (n_classes : Nat) : Net :=
  [("input", .inputL [none, some 4096] none),
   ("fc7", vggDense "input" 4096 .rectify),
   ("fc8", vggDense "fc7" n_classes .linear),
   ("prob", .nonlinearityL "fc8" .softmax)]

/-- The layer dict built by `vgg19_fc8_to_prob` (construction only). -/
def vgg19_fc8_net (n_classes : Nat) : Net :=
  [("input", .inputL [none, some 4096] none),
   ("fc8", vggDense "input" n_classes .linear),
   ("prob", .nonlinearityL "fc8" .softmax)]

/-- A JeffreyDF ConvLayer call: `pad='same'`, untied biases, leaky-rectify
nonlinearity with leakiness 0.5, Orthogonal(1.0) W, Constant(0.1) b. -/
def jeffConv (inc : String) (nf fsize : Nat) (stride : Nat × Nat) : Layer :=
  .convL inc nf fsize stride .same true (.orthogonal 1) (.constantI (1 / 10))
    (.leakyRectify (1 / 2))

/-- A JeffreyDF dense layer: linear, Orthogonal(1.0) W, Constant(0.1) b. -/
def jeffDense (inc : String) (u : Nat) (name : Option String) : Layer :=
  .denseL inc u (.orthogonal 1) (.constantI (1 / 10)) .linear name

/-- The layer dict built by `jeffrey_df` (construction only). The target
shape of layer `'24'` is `(-1, net['23'].output_shape[1]*2)`, computed from
the partially built net exactly as in the source. -/
def jeffrey_net (width height n_classes : Nat) (batch_size : Option Nat) :
    Net :=
  let pre : Net := [
    ("0", .inputL [batch_size, some 3, some width, some height]
      (some "images")),
    ("1", jeffConv "0" 32 7 (2, 2)),
    ("2", .poolL "1" 3 (2, 2) none),
    ("3", jeffConv "2" 32 3 (1, 1)),
    ("4", jeffConv "3" 32 3 (1, 1)),
    ("5", .poolL "4" 3 (2, 2) none),
    ("6", jeffConv "5" 64 3 (1, 1)),
    ("7", jeffConv "6" 64 3 (1, 1)),
    ("8", .poolL "7" 3 (2, 2) none),
    ("9", jeffConv "8" 128 3 (1, 1)),
    ("10", jeffConv "9" 128 3 (1, 1)),
    ("11", jeffConv "10" 128 3 (1, 1)),
    ("12", jeffConv "11" 128 3 (1, 1)),
    ("13", .poolL "12" 3 (2, 2) none),
    ("14", jeffConv "13" 256 3 (1, 1)),
    ("15", jeffConv "14" 256 3 (1, 1)),
    ("16", jeffConv "15" 256 3 (1, 1)),
    ("17", jeffConv "16" 256 3 (1, 1)),
    ("18", .poolL "17" 3 (2, 2) (some "coarse_last_pool")),
    ("19", .dropoutL "18" (1 / 2)),
    ("20", jeffDense "19" 1024 (some "first_fc_0")),
    ("21", .featurePoolL "20" 2),
    ("22", .inputL [batch_size, some 2] (some "imgdim")),
    ("23", .concatL ["21", "22"])]
  let dim23 : Nat := ((outDim pre "23" 1).bind id).getD 0
  pre ++ [
    ("24", .reshapeL "23" [.minusOne, .dim (dim23 * 2)]),
    ("25", .dropoutL "24" (1 / 2)),
    ("26", jeffDense "25" 1024 (some "combine_repr_fc")),
    ("27", .featurePoolL "26" 2),
    ("28", .dropoutL "27" (1 / 2)),
    ("29", jeffDense "28" (n_classes * 2) none),
    ("30", .reshapeL "29" [.minusOne, .dim n_classes]),
    ("31", .nonlinearityL "30" .softmax)]

/-- Result of running a network constructor: the layer dict, the parameter
store afterwards, the exception if one was raised, the files opened, and
whether `set_all_param_values` was reached. -/
structure BuildResult where
  net : Net
  params : PState
  error : Option Err
  opened : List String
  setCalled : Bool

/-- `vgg19(input_var, filename, n_classes, p)`: build the net, then load
weights through `load_weights(net['prob'], filename)` when a filename is
given. `st` is the parameter store holding the initializer-assigned values. -/
def vgg19 (n_classes : Nat) (p : Option ℚ) (filename : Option String)
    (fs : FileSys) (st : PState) : BuildResult :=
  let net := vgg19_net n_classes p
  match filename with
  | none => ⟨net, st, none, [], false⟩
  | some fn =>
      let r := load_weights net "prob" fn fs st
      ⟨net, r.params, r.error, r.opened, r.setCalled⟩

/-- `vgg19_fc7_to_prob(input_var, filename, n_classes)`. -/
def vgg19_fc7_to_prob (n_classes : Nat) (filename : Option String)
    (fs : FileSys) (st : PState) : BuildResult :=
  let net := vgg19_fc7_net n_classes
  match filename with
  | none => ⟨net, st, none, [], false⟩
  | some fn =>
      let r := load_weights net "prob" fn fs st
      ⟨net, r.params, r.error, r.opened, r.setCalled⟩

/-- `vgg19_fc8_to_prob(input_var, filename, n_classes)`. -/
def vgg19_fc8_to_prob (n_classes : Nat) (filename : Option String)
    (fs : FileSys) (st : PState) : BuildResult :=
  let net := vgg19_fc8_net n_classes
  match filename with
  | none => ⟨net, st, none, [], false⟩
  | some fn =>
      let r := load_weights net "prob" fn fs st
      ⟨net, r.params, r.error, r.opened, r.setCalled⟩

/-- `jeffrey_df(input_var, width, height, filename, n_classes, batch_size)`:
build the net; when a filename is given, open it, unpickle it, and pass the
unpickled object itself to `set_all_param_values(net['31'], weights)` —
no extension dispatch and no `'param values'` lookup. -/
def jeffrey_df (width height n_classes : Nat) (batch_size : Option Nat)
    (filename : Option String) (fs : FileSys) (st : PState) : BuildResult :=
  let net := jeffrey_net width height n_classes batch_size
  match filename with
  | none => ⟨net, st, none, [], false⟩
  | some fn =>
      match fs fn with
      | some (.pklFile obj) =>
          let r := set_all_param_values_obj net "31" obj st
          ⟨net, r.1, r.2, [fn], true⟩
      | _ => ⟨net, st, some (.ioError fn), [fn], false⟩

/-- Whether a layer is a dropout layer. -/
def isDropout : Layer → Bool
  | .dropoutL _ _ => true
  | _ => false

/-- `chainFrom prev rest`: every layer of `rest`, in order, has exactly the
previous entry as its single incoming layer. -/
def chainFrom (prev : String) : Net → Bool
  | [] => true
  | e :: rest => (parentsOf e.2 == [prev]) && chainFrom e.1 rest

/-- A net is a linear chain: the first layer has no incoming layers and each
later layer consumes exactly the layer inserted just before it. -/
def isLinearChain : Net → Bool
  | [] => false
  | e :: rest => (parentsOf e.2 == []) && chainFrom e.1 rest

/-- The name-free skeleton of a layer: kind and shape parameters. -/
inductive Sketch where
  | inputS (shape : List (Option Nat))
  | convS (numFilters filterSize : Nat) (pad : Pad) (stride : Nat × Nat)
  | poolS (size : Nat)
  | denseS (units : Nat) (nonlin : NonlinK)
  | dropoutS (p : ℚ)
  | nonlinS (nl : NonlinK)
  | featurePoolS (size : Nat)
  | concatS
  | reshapeS (spec : List RDim)
deriving DecidableEq, Repr

/-- Project a layer to its skeleton. -/
def sketchOf : Layer → Sketch
  | .inputL s _ => .inputS s
  | .convL _ nf fsize stride pad _ _ _ _ => .convS nf fsize pad stride
  | .poolL _ size _ _ => .poolS size
  | .denseL _ units _ _ nl _ => .denseS units nl
  | .dropoutL _ p => .dropoutS p
  | .nonlinearityL _ nl => .nonlinS nl
  | .featurePoolL _ size => .featurePoolS size
  | .concatL _ => .concatS
  | .reshapeL _ spec => .reshapeS spec

/-- The published VGG19 topology as the spec describes it: an input of shape
(None, 3, 224, 224); five blocks of 3x3 pad-1 convolutions with channel
counts (64,64), (128,128), (256,256,256,256), (512,512,512,512),
(512,512,512,512), each followed by a size-2 pooling layer; dense layers of
4096, 4096 and `n_classes` units; a final softmax. -/
def vgg19_published (n_classes : Nat) : List Sketch :=
  .inputS [none, some 3, some 224, some 224] ::
  ([(64, 2), (128, 2), (256, 4), (512, 4), (512, 4)].flatMap
    (fun bc : Nat × Nat =>
      List.replicate bc.2 (.convS bc.1 3 (.num 1) (1, 1)) ++ [.poolS 2]))
  ++ [.denseS 4096 .rectify, .denseS 4096 .rectify,
      .denseS n_classes .linear, .nonlinS .softmax]

/-- Split a flat list into consecutive chunks of length `c`. -/
def chunk (c : Nat) : List α → List (List α)
  | [] => []
  | a :: l =>
      if _h : c = 0 then []
      else (a :: l).take c :: chunk c ((a :: l).drop c)
termination_by l => l.length
decreasing_by
  simp only [List.length_drop, List.length_cons]
  omega

/-- Reinterpreting a row-major matrix with `c` columns per row: the row-major
semantics of a numpy/lasagne reshape to `(-1, c)`. -/
def rowMajorReshape (c : Nat) (m : List (List α)) : List (List α) :=
  chunk c m.flatten

/-- Merge consecutive pairs of rows into single rows. -/
def mergePairs : List (List α) → List (List α)
  | r1 :: r2 :: rest => (r1 ++ r2) :: mergePairs rest
  | _ => []

/-- The `W` and `b` parameter references of a layer name. -/
def wb (s : String) : List ParamRef := [(s, "W"), (s, "b")]

/-- Names of the parameterised layers of `vgg19`, in traversal order. -/
def vggParamNames : List String :=
  ["conv1_1", "conv1_2", "conv2_1", "conv2_2", "conv3_1", "conv3_2",
   "conv3_3", "conv3_4", "conv4_1", "conv4_2", "conv4_3", "conv4_4",
   "conv5_1", "conv5_2", "conv5_3", "conv5_4", "fc6", "fc7", "fc8"]

/-- Names of the parameterised layers of `jeffrey_df`, in traversal order. -/
def jeffParamNames : List String :=
  ["1", "3", "4", "6", "7", "9", "10", "11", "12", "14", "15", "16", "17",
   "20", "26", "29"]

theorem get_all_params_vgg19 (n : Nat) (p : Option ℚ) :
    get_all_params (vgg19_net n p) "prob" = vggParamNames.flatMap wb := by
  rcases p with _ | q
  · rfl
  · rfl

theorem get_all_params_jeffrey (w h n : Nat) (b : Option Nat) :
    get_all_params (jeffrey_net w h n b) "31" = jeffParamNames.flatMap wb :=
  rfl

theorem vgg19_params_nodup (n : Nat) (p : Option ℚ) :
    (get_all_params (vgg19_net n p) "prob").Nodup := by
  rw [get_all_params_vgg19]
  decide

theorem jeffrey_params_nodup (w h n : Nat) (b : Option Nat) :
    (get_all_params (jeffrey_net w h n b) "31").Nodup := by
  rw [get_all_params_jeffrey]
  decide

theorem setLoop_ok : ∀ (refs : List ParamRef) (vals : List NDArray)
    (st : PState), refs.Nodup → refs.length = vals.length →
    (∀ i (h : i < refs.length) (h' : i < vals.length),
      (st (refs.get ⟨i, h⟩)).shape = (vals.get ⟨i, h'⟩).shape) →
    (setLoop refs vals st).2 = none ∧
    (∀ i (h : i < refs.length) (h' : i < vals.length),
      (setLoop refs vals st).1 (refs.get ⟨i, h⟩) = vals.get ⟨i, h'⟩) ∧
    (∀ q, q ∉ refs → (setLoop refs vals st).1 q = st q)
  | [], [], st, _, _, _ =>
      ⟨rfl, fun i h _ => absurd h (Nat.not_lt_zero i), fun _ _ => rfl⟩
  | [], v :: vs, _, _, hlen, _ => absurd hlen (by simp)
  | r :: rs, [], _, _, hlen, _ => absurd hlen (by simp)
  | r :: rs, v :: vs, st, hnd, hlen, hsh => by
      have h0 : (st r).shape = v.shape :=
        hsh 0 (Nat.succ_pos _) (Nat.succ_pos _)
      have hr : r ∉ rs := (List.nodup_cons.mp hnd).1
      have hnd' : rs.Nodup := (List.nodup_cons.mp hnd).2
      have hlen' : rs.length = vs.length := by simpa using hlen
      have hsh' : ∀ i (h : i < rs.length) (h' : i < vs.length),
          ((st.set r v) (rs.get ⟨i, h⟩)).shape = (vs.get ⟨i, h'⟩).shape := by
        intro i h h'
        have hne : rs.get ⟨i, h⟩ ≠ r := by
          intro he
          exact hr (he ▸ rs.get_mem i h)
        have hst : (st.set r v) (rs.get ⟨i, h⟩) = st (rs.get ⟨i, h⟩) := by
          unfold PState.set
          rw [if_neg hne]
        rw [hst]
        exact hsh (i + 1) (Nat.succ_lt_succ h) (Nat.succ_lt_succ h')
      obtain ⟨he, hget, hfr⟩ := setLoop_ok rs vs (st.set r v) hnd' hlen' hsh'
      have heq : setLoop (r :: rs) (v :: vs) st = setLoop rs vs (st.set r v) := by
        simp only [setLoop]
        rw [if_pos h0]
      refine ⟨by rw [heq]; exact he, ?_, ?_⟩
      · intro i h h'
        cases i with
        | zero =>
            rw [heq]
            show (setLoop rs vs (st.set r v)).1 r = v
            rw [hfr r hr]
            unfold PState.set
            rw [if_pos rfl]
        | succ j =>
            rw [heq]
            exact hget j (Nat.lt_of_succ_lt_succ h) (Nat.lt_of_succ_lt_succ h')
      · intro q hq
        rw [heq, hfr q (fun hm => hq (List.mem_cons_of_mem r hm))]
        unfold PState.set
        rw [if_neg (fun he : q = r => hq (he ▸ List.mem_cons_self r rs))]

theorem setLoop_mismatch : ∀ (refs : List ParamRef) (vals : List NDArray)
    (st : PState), refs.Nodup → refs.length = vals.length →
    (∃ i, ∃ (h : i < refs.length) (h' : i < vals.length),
      (st (refs.get ⟨i, h⟩)).shape ≠ (vals.get ⟨i, h'⟩).shape) →
    ((setLoop refs vals st).2).isSome = true
  | [], [], _, _, _, ⟨i, h, _, _⟩ => absurd h (Nat.not_lt_zero i)
  | [], v :: vs, _, _, hlen, _ => absurd hlen (by simp)
  | r :: rs, [], _, _, hlen, _ => absurd hlen (by simp)
  | r :: rs, v :: vs, st, hnd, hlen, hex => by
      by_cases h0 : (st r).shape = v.shape
      · have hr : r ∉ rs := (List.nodup_cons.mp hnd).1
        obtain ⟨i, h, h', hne⟩ := hex
        have hex' : ∃ i, ∃ (h : i < rs.length) (h' : i < vs.length),
            ((st.set r v) (rs.get ⟨i, h⟩)).shape ≠ (vs.get ⟨i, h'⟩).shape := by
          cases i with
          | zero => exact absurd h0 hne
          | succ j =>
              refine ⟨j, Nat.lt_of_succ_lt_succ h,
                Nat.lt_of_succ_lt_succ h', ?_⟩
              have hneq : rs.get ⟨j, Nat.lt_of_succ_lt_succ h⟩ ≠ r := by
                intro he
                exact hr (he ▸ rs.get_mem j (Nat.lt_of_succ_lt_succ h))
              unfold PState.set
              rw [if_neg hneq]
              exact hne
        have hrec := setLoop_mismatch rs vs (st.set r v)
          (List.nodup_cons.mp hnd).2 (by simpa using hlen) hex'
        simp only [setLoop]
        rw [if_pos h0]
        exact hrec
      · simp only [setLoop]
        rw [if_neg h0]
        rfl

theorem set_all_ok (net : Net) (name : String) (vals : List NDArray)
    (st : PState) (hnd : (get_all_params net name).Nodup)
    (hlen : (get_all_params net name).length = vals.length)
    (hsh : ∀ i (h : i < (get_all_params net name).length)
      (h' : i < vals.length),
      (st ((get_all_params net name).get ⟨i, h⟩)).shape =
        (vals.get ⟨i, h'⟩).shape) :
    (set_all_param_values net name vals st).2 = none ∧
    (∀ i (h : i < (get_all_params net name).length) (h' : i < vals.length),
      (set_all_param_values net name vals st).1
        ((get_all_params net name).get ⟨i, h⟩) = vals.get ⟨i, h'⟩) ∧
    (∀ q, q ∉ get_all_params net name →
      (set_all_param_values net name vals st).1 q = st q) := by
  unfold set_all_param_values
  rw [if_pos hlen]
  exact setLoop_ok _ _ _ hnd hlen hsh

theorem set_all_mismatch (net : Net) (name : String) (vals : List NDArray)
    (st : PState) (hnd : (get_all_params net name).Nodup)
    (hmm : ¬((get_all_params net name).length = vals.length ∧
      ∀ i (h : i < (get_all_params net name).length) (h' : i < vals.length),
        (st ((get_all_params net name).get ⟨i, h⟩)).shape =
          (vals.get ⟨i, h'⟩).shape)) :
    ((set_all_param_values net name vals st).2).isSome = true := by
  unfold set_all_param_values
  by_cases hlen : (get_all_params net name).length = vals.length
  · rw [if_pos hlen]
    apply setLoop_mismatch _ _ _ hnd hlen
    push_neg at hmm
    exact hmm hlen
  · rw [if_neg hlen]
    rfl

theorem npzLookup_none (members : List (String × NDArray)) (key : String) :
    npzLookup members key = none ↔ key ∉ members.map Prod.fst := by
  unfold npzLookup
  rw [Option.map_eq_none', List.find?_eq_none]
  simp only [List.mem_map, beq_iff_eq]
  constructor
  · rintro hall ⟨m, hm, hkey⟩
    exact hall m hm (by simp [hkey])
  · intro hno m hm hkey
    exact hno ⟨m, hm, by simpa using hkey⟩

theorem collectFrom_ok (members : List (String × NDArray)) :
    ∀ (k i : Nat) (vals : List NDArray),
    collectFrom members i k = .ok vals →
    vals.length = k ∧
    ∀ j (hj : j < vals.length),
      npzLookup members ("arr_" ++ toString (i + j)) =
        some (vals.get ⟨j, hj⟩) := by
  intro k
  induction k with
  | zero =>
      intro i vals hv
      unfold collectFrom at hv
      cases hv
      exact ⟨rfl, fun j hj => absurd hj (Nat.not_lt_zero j)⟩
  | succ k ih =>
      intro i vals hv
      unfold collectFrom at hv
      cases hfind : npzLookup members ("arr_" ++ toString i) with
      | none =>
          rw [hfind] at hv
          exact absurd hv (by simp)
      | some a =>
          rw [hfind] at hv
          cases hrec : collectFrom members (i + 1) k with
          | error e =>
              rw [hrec] at hv
              exact absurd hv (by simp)
          | ok rest =>
              rw [hrec] at hv
              have hvals : vals = a :: rest := by
                cases hv
                rfl
              subst hvals
              obtain ⟨hlen, hall⟩ := ih (i + 1) rest hrec
              refine ⟨by simp [hlen], ?_⟩
              intro j hj
              cases j with
              | zero => simpa using hfind
              | succ jj =>
                  have hj' : jj < rest.length := by simpa using hj
                  have hjj := hall jj hj'
                  have harith : i + (jj + 1) = (i + 1) + jj := by omega
                  rw [harith]
                  simpa using hjj

theorem collectFrom_err (members : List (String × NDArray)) :
    ∀ (k i : Nat),
    (∃ j, j < k ∧ npzLookup members ("arr_" ++ toString (i + j)) = none) →
    ∃ key, collectFrom members i k = .error (.keyError key) := by
  intro k
  induction k with
  | zero =>
      rintro i ⟨j, hj, _⟩
      exact absurd hj (Nat.not_lt_zero j)
  | succ k ih =>
      rintro i ⟨j, hj, hnone⟩
      cases hfind : npzLookup members ("arr_" ++ toString i) with
      | none =>
          refine ⟨"arr_" ++ toString i, ?_⟩
          unfold collectFrom
          rw [hfind]
      | some a =>
          have hjpos : j ≠ 0 := by
            intro h0
            subst h0
            rw [Nat.add_zero] at hnone
            rw [hfind] at hnone
            exact absurd hnone (by simp)
          obtain ⟨jj, rfl⟩ : ∃ jj, j = jj + 1 := ⟨j - 1, by omega⟩
          obtain ⟨key, hkey⟩ := ih (i + 1)
            ⟨jj, by omega, by rw [show (i + 1) + jj = i + (jj + 1) by omega]
                              exact hnone⟩
          refine ⟨key, ?_⟩
          unfold collectFrom
          rw [hfind, hkey]

theorem load_weights_npz_eq (net : Net) (name filename : String)
    (fs : FileSys) (st : PState) (members : List (String × NDArray))
    (vals : List NDArray)
    (h1 : pyEndsWith filename ".npz" = true)
    (h2 : fs filename = some (.npzFile members))
    (h3 : collectNpz members = .ok vals) :
    load_weights net name filename fs st =
      ⟨(set_all_param_values net name vals st).1,
       (set_all_param_values net name vals st).2, [filename], true⟩ := by
  have hstep : load_weights net name filename fs st =
      (match collectNpz members with
       | .ok vs => ⟨(set_all_param_values net name vs st).1,
           (set_all_param_values net name vs st).2, [filename], true⟩
       | .error e => ⟨st, some e, [filename], false⟩) := by
    unfold load_weights
    rw [h1, h2]
    rfl
  rw [hstep, h3]

theorem load_weights_npz_err (net : Net) (name filename : String)
    (fs : FileSys) (st : PState) (members : List (String × NDArray))
    (e : Err)
    (h1 : pyEndsWith filename ".npz" = true)
    (h2 : fs filename = some (.npzFile members))
    (h3 : collectNpz members = .error e) :
    load_weights net name filename fs st = ⟨st, some e, [filename], false⟩ := by
  have hstep : load_weights net name filename fs st =
      (match collectNpz members with
       | .ok vs => ⟨(set_all_param_values net name vs st).1,
           (set_all_param_values net name vs st).2, [filename], true⟩
       | .error e => ⟨st, some e, [filename], false⟩) := by
    unfold load_weights
    rw [h1, h2]
    rfl
  rw [hstep, h3]

theorem load_weights_pkl_eq (net : Net) (name filename : String)
    (fs : FileSys) (st : PState) (entries : List (String × PyObj))
    (v : PyObj)
    (h1 : pyEndsWith filename ".npz" = false)
    (h2 : pyEndsWith filename ".pkl" = true)
    (h3 : fs filename = some (.pklFile (.dict entries)))
    (h4 : pyLookup entries "param values" = some v) :
    load_weights net name filename fs st =
      ⟨(set_all_param_values_obj net name v st).1,
       (set_all_param_values_obj net name v st).2, [filename], true⟩ := by
  have hstep : load_weights net name filename fs st =
      (match pyLookup entries "param values" with
       | some u => ⟨(set_all_param_values_obj net name u st).1,
           (set_all_param_values_obj net name u st).2, [filename], true⟩
       | none => ⟨st, some (.keyError "param values"), [filename], false⟩) := by
    unfold load_weights
    rw [h1, h2, h3]
    rfl
  rw [hstep, h4]

theorem chunk_append (c : Nat) (xs ys : List α) (hlen : xs.length = c)
    (hc : 0 < c) : chunk c (xs ++ ys) = xs :: chunk c ys := by
  cases xs with
  | nil =>
      simp only [List.length_nil] at hlen
      omega
  | cons a l =>
      show chunk c (a :: (l ++ ys)) = (a :: l) :: chunk c ys
      rw [chunk]
      rw [dif_neg (by omega : ¬ c = 0)]
      subst hlen
      congr 1
      · exact List.take_left (a :: l) ys
      · rw [show a :: (l ++ ys) = (a :: l) ++ ys from rfl, List.drop_left]

theorem chunk_flatten_merge {α : Type} (c : Nat) (hc : 0 < c) :
    ∀ (m : List (List α)), (∀ r ∈ m, r.length = c) → m.length % 2 = 0 →
    chunk (2 * c) m.flatten = mergePairs m
  | [], _, _ => by
      rw [List.flatten_nil, chunk]
      rfl
  | [r], _, hev => by simp at hev
  | r1 :: r2 :: rest, hr, hev => by
      have h1 : r1.length = c := hr r1 (by simp)
      have h2 : r2.length = c := hr r2 (by simp)
      have hflat : (r1 :: r2 :: rest).flatten =
          (r1 ++ r2) ++ rest.flatten := by
        simp [List.flatten_cons, List.append_assoc]
      rw [hflat, chunk_append (2 * c) (r1 ++ r2) rest.flatten
        (by rw [List.length_append, h1, h2]; omega) (by omega)]
      show _ = (r1 ++ r2) :: mergePairs rest
      congr 1
      exact chunk_flatten_merge c hc rest
        (fun r hrr => hr r (by simp [hrr]))
        (by simp only [List.length_cons] at hev; omega)

theorem load_weights_other (net : Net) (name filename : String)
    (fs : FileSys) (st : PState)
    (h1 : pyEndsWith filename ".npz" = false)
    (h2 : pyEndsWith filename ".pkl" = false) :
    load_weights net name filename fs st =
      ⟨st, some (.notImplementedError
        ("Format of " ++ filename ++ " not known")), [], false⟩ := by
  unfold load_weights
  rw [h1, h2]
  rfl


/-- A small three-layer net (input, dense, softmax) used to exercise
`load_weights` on concrete inputs. -/
def netSmall : Net :=
  [("in", .inputL [none, some 4] none),
   ("fc", .denseL "in" 3 .glorotUniform (.constantI 0) .linear none),
   ("prob", .nonlinearityL "fc" .softmax)]

/-- Concrete dense weight array (shape 4x3). -/
def aW : NDArray := ⟨[4, 3], [10]⟩

/-- Concrete dense bias array (shape 3). -/
def aB : NDArray := ⟨[3], [20]⟩

/-- Initial parameter store for `netSmall`: matching shapes, zero data. -/
def stSmall : PState := fun q =>
  if q.2 == "W" then ⟨[4, 3], [0]⟩ else ⟨[3], [0]⟩

/-- A concrete file system with a well-formed `.npz`, a well-formed `.pkl`,
an `.npz` with a misnamed member, and mismatching weight files. -/
def fsSmall : FileSys := fun fn =>
  if fn == "w.npz" then some (.npzFile [("arr_0", aW), ("arr_1", aB)])
  else if fn == "w.pkl" then
    some (.pklFile (.dict [("param values", .arrs [aW, aB])]))
  else if fn == "bad.npz" then
    some (.npzFile [("arr_0", aW), ("foo", aB)])
  else if fn == "short.npz" then some (.npzFile [("arr_0", aW)])
  else if fn == "short.pkl" then
    some (.pklFile (.dict [("param values", .arrs [aW])]))
  else none

/-- Initial parameter store for `jeffrey_df` witnesses: every parameter has
shape `[1]`. -/
def stJeff : PState := fun _ => ⟨[1], [0]⟩

/-- 32 replacement arrays of shape `[1]`, one per `jeffrey_df` parameter. -/
def valsJeff : List NDArray := List.replicate 32 ⟨[1], [5]⟩

/-- A concrete file system for the `jeffrey_df` loading paths: a pickled raw
list of arrays under a non-`.pkl` name, a pickled dict with a
`'param values'` entry under a `.pkl` name, and a pickled short list. -/
def fsJeff : FileSys := fun fn =>
  if fn == "w.txt" then some (.pklFile (.arrs valsJeff))
  else if fn == "w.pkl" then
    some (.pklFile (.dict [("param values", .arrs valsJeff)]))
  else if fn == "short.pkl" then some (.pklFile (.arrs [⟨[1], [5]⟩]))
  else none

/-- `jeffrey_df`'s weight-loading path: whatever object the file unpickles
to is passed to `set_all_param_values(net['31'], weights)` as-is. -/
theorem jeffrey_df_pkl_eq (w h n : Nat) (b : Option Nat) (fn : String)
    (fs : FileSys) (st : PState) (obj : PyObj)
    (hfs : fs fn = some (.pklFile obj)) :
    jeffrey_df w h n b (some fn) fs st =
      ⟨jeffrey_net w h n b,
       (set_all_param_values_obj (jeffrey_net w h n b) "31" obj st).1,
       (set_all_param_values_obj (jeffrey_net w h n b) "31" obj st).2,
       [fn], true⟩ := by
  unfold jeffrey_df
  simp only [hfs]

/-- Parent structure of the `jeffrey_df` graph: one linear chain from the
image input to the softmax, except for the second (scalar-features) input
`'22'` and the concatenation `'23'` that joins the two branches. -/
def jeffParents : List (String × List String) :=
  [("0", []), ("1", ["0"]), ("2", ["1"]), ("3", ["2"]), ("4", ["3"]),
   ("5", ["4"]), ("6", ["5"]), ("7", ["6"]), ("8", ["7"]), ("9", ["8"]),
   ("10", ["9"]), ("11", ["10"]), ("12", ["11"]), ("13", ["12"]),
   ("14", ["13"]), ("15", ["14"]), ("16", ["15"]), ("17", ["16"]),
   ("18", ["17"]), ("19", ["18"]), ("20", ["19"]), ("21", ["20"]),
   ("22", []), ("23", ["21", "22"]), ("24", ["23"]), ("25", ["24"]),
   ("26", ["25"]), ("27", ["26"]), ("28", ["27"]), ("29", ["28"]),
   ("30", ["29"]), ("31", ["30"])]

/-- C4: for every constructor and every `n_classes`, the final layer of the
returned graph is a softmax `NonlinearityLayer` whose output has exactly
`n_classes` units per classified example; for `jeffrey_df` the last dense
layer has `n_classes * 2` units and the reshape restores `n_classes` columns
before the softmax. -/
theorem claim_C4_final_softmax (n w h : Nat) (p : Option ℚ)
    (b : Option Nat) :
    ((vgg19_net n p).getLast? =
       some ("prob", .nonlinearityL "fc8" .softmax) ∧
     outDim (vgg19_net n p) "prob" 1 = some (some n) ∧
     (∃ inc, lookupLayer (vgg19_net n p) "fc8" =
       some (vggDense inc n .linear))) ∧
    ((vgg19_fc7_net n).getLast? =
       some ("prob", .nonlinearityL "fc8" .softmax) ∧
     outDim (vgg19_fc7_net n) "prob" 1 = some (some n) ∧
     lookupLayer (vgg19_fc7_net n) "fc8" =
       some (vggDense "fc7" n .linear)) ∧
    ((vgg19_fc8_net n).getLast? =
       some ("prob", .nonlinearityL "fc8" .softmax) ∧
     outDim (vgg19_fc8_net n) "prob" 1 = some (some n) ∧
     lookupLayer (vgg19_fc8_net n) "fc8" =
       some (vggDense "input" n .linear)) ∧
    ((jeffrey_net w h n b).getLast? =
       some ("31", .nonlinearityL "30" .softmax) ∧
     outDim (jeffrey_net w h n b) "31" 1 = some (some n) ∧
     lookupLayer (jeffrey_net w h n b) "29" =
       some (jeffDense "28" (n * 2) none) ∧
     lookupLayer (jeffrey_net w h n b) "30" =
       some (.reshapeL "29" [.minusOne, .dim n])) := by
  refine ⟨⟨?_, ?_, ?_⟩, ⟨rfl, rfl, rfl⟩, ⟨rfl, rfl, rfl⟩,
    rfl, rfl, rfl, rfl⟩
  · rcases p with _ | q <;> rfl
  · rcases p with _ | q <;> rfl
  · rcases p with _ | q
    · exact ⟨"fc7", rfl⟩
    · exact ⟨"dropout2", rfl⟩

/-- C5: in the `jeffrey_df` graph the image branch (1024-unit dense layer
`'20'` followed by the feature-pool layer `'21'`) is concatenated with the
2-feature input `'22'`; the reshape `'24'` doubles the feature dimension
(514 to 1028), which on row-major data merges consecutive pairs of rows
into one row; all other layers form a single linear chain. -/
theorem claim_C5_jeffrey_merge (w h n : Nat) (b : Option Nat) :
    (jeffrey_net w h n b).map (fun e => (e.1, parentsOf e.2)) =
      jeffParents ∧
    lookupLayer (jeffrey_net w h n b) "20" =
      some (jeffDense "19" 1024 (some "first_fc_0")) ∧
    lookupLayer (jeffrey_net w h n b) "21" = some (.featurePoolL "20" 2) ∧
    lookupLayer (jeffrey_net w h n b) "22" =
      some (.inputL [b, some 2] (some "imgdim")) ∧
    lookupLayer (jeffrey_net w h n b) "23" = some (.concatL ["21", "22"]) ∧
    lookupLayer (jeffrey_net w h n b) "24" =
      some (.reshapeL "23" [.minusOne, .dim 1028]) ∧
    outDim (jeffrey_net w h n b) "23" 1 = some (some 514) ∧
    outDim (jeffrey_net w h n b) "24" 1 = some (some (2 * 514)) ∧
    (∀ (m : List (List Int)), (∀ r ∈ m, r.length = 514) →
      m.length % 2 = 0 → rowMajorReshape 1028 m = mergePairs m) := by
  refine ⟨rfl, rfl, rfl, rfl, rfl, rfl, rfl, rfl, ?_⟩
  intro m hr hev
  exact chunk_flatten_merge 514 (by omega) m hr hev

/-- Two concrete rows of width 514, for exercising the reshape semantics. -/
def mRows : List (List Int) := [List.replicate 514 0, List.replicate 514 1]

/-- Witness for C5 at a concrete matrix. -/
theorem claim_C5_witness :
    (∀ r ∈ mRows, r.length = 514) ∧ mRows.length % 2 = 0 ∧
    rowMajorReshape 1028 mRows = mergePairs mRows := by
  have hrows : ∀ r ∈ mRows, r.length = 514 := by
    intro r hrm
    simp only [mRows, List.mem_cons, List.not_mem_nil, or_false] at hrm
    rcases hrm with rfl | rfl <;> exact List.length_replicate _ _
  exact ⟨hrows, rfl,
    (claim_C5_jeffrey_merge 512 512 5 none).2.2.2.2.2.2.2.2 mRows hrows rfl⟩

/-- C6: `vgg19` (base configuration, `p = None`) builds exactly the published
VGG19 topology: a linear chain with a (None, 3, 224, 224) input, sixteen 3x3
pad-1 convolutions in five blocks (64,64), (128,128), (256,256,256,256),
(512,512,512,512), (512,512,512,512), a size-2 pool after each block, dense
layers of 4096, 4096 and `n_classes` units, and a final softmax. -/
theorem claim_C6_vgg19_topology (n : Nat) :
    (vgg19_net n none).map (fun e => sketchOf e.2) = vgg19_published n ∧
    isLinearChain (vgg19_net n none) = true := by
  exact ⟨rfl, rfl⟩

/-- C8: with `p = None`, `vgg19` has no dropout layers and `fc7` consumes
`fc6` directly; with `p` given, exactly two dropout layers of probability
`p` sit between `fc6`/`fc7` and `fc7`/`fc8`; the layers from the input
through `fc6` (the first 23 entries) and the final softmax layer are the
same in both cases. -/
theorem claim_C8_vgg19_dropout (n : Nat) (q : ℚ) :
    ((vgg19_net n none).filter (fun e => isDropout e.2) = [] ∧
     lookupLayer (vgg19_net n none) "fc7" =
       some (vggDense "fc6" 4096 .rectify) ∧
     lookupLayer (vgg19_net n none) "fc8" =
       some (vggDense "fc7" n .linear)) ∧
    ((vgg19_net n (some q)).filter (fun e => isDropout e.2) =
       [("dropout1", .dropoutL "fc6" q), ("dropout2", .dropoutL "fc7" q)] ∧
     lookupLayer (vgg19_net n (some q)) "dropout1" =
       some (.dropoutL "fc6" q) ∧
     lookupLayer (vgg19_net n (some q)) "fc7" =
       some (vggDense "dropout1" 4096 .rectify) ∧
     lookupLayer (vgg19_net n (some q)) "dropout2" =
       some (.dropoutL "fc7" q) ∧
     lookupLayer (vgg19_net n (some q)) "fc8" =
       some (vggDense "dropout2" n .linear)) ∧
    ((vgg19_net n none).take 23 = (vgg19_net n (some q)).take 23 ∧
     lookupLayer (vgg19_net n none) "prob" =
       lookupLayer (vgg19_net n (some q)) "prob") := by
  exact ⟨⟨rfl, rfl, rfl⟩, ⟨rfl, rfl, rfl, rfl, rfl⟩, rfl, rfl⟩

/-- C10: with `filename = None`, every constructor returns the freshly built
net, leaves the parameter store at its initializer-assigned values, opens no
file, and never reaches `set_all_param_values` --- for every choice of the
remaining arguments (including the file system, which is never consulted). -/
theorem claim_C10_no_filename_no_load (n w h : Nat) (p : Option ℚ)
    (b : Option Nat) (fs : FileSys) (st : PState) :
    vgg19 n p none fs st = ⟨vgg19_net n p, st, none, [], false⟩ ∧
    vgg19_fc7_to_prob n none fs st =
      ⟨vgg19_fc7_net n, st, none, [], false⟩ ∧
    vgg19_fc8_to_prob n none fs st =
      ⟨vgg19_fc8_net n, st, none, [], false⟩ ∧
    jeffrey_df w h n b none fs st =
      ⟨jeffrey_net w h n b, st, none, [], false⟩ := by
  exact ⟨rfl, rfl, rfl, rfl⟩

/-- C1: for a filename accepted by `load_weights`, the loaded values are
determined by the extension --- `.npz`: the archive members `arr_0` through
`arr_{N-1}` read in ascending index order; `.pkl`: the `'param values'`
entry of the unpickled dict --- and are assigned positionally, via
`set_all_param_values`, to the parameters of all layers at or below the
given layer in the graph's fixed traversal order. -/
theorem claim_C1_load_by_extension (net : Net) (name filename : String)
    (fs : FileSys) (st : PState) (members : List (String × NDArray))
    (entries : List (String × PyObj)) (vals : List NDArray)
    (hnd : (get_all_params net name).Nodup)
    (hlen : (get_all_params net name).length = vals.length)
    (hsh : ∀ i (hi : i < (get_all_params net name).length)
      (hi' : i < vals.length),
      (st ((get_all_params net name).get ⟨i, hi⟩)).shape =
        (vals.get ⟨i, hi'⟩).shape) :
    (pyEndsWith filename ".npz" = true →
     fs filename = some (.npzFile members) →
     collectNpz members = .ok vals →
     vals.length = members.length ∧
     (∀ j (hj : j < vals.length),
       npzLookup members ("arr_" ++ toString j) = some (vals.get ⟨j, hj⟩)) ∧
     (load_weights net name filename fs st).error = none ∧
     (load_weights net name filename fs st).opened = [filename] ∧
     (load_weights net name filename fs st).setCalled = true ∧
     (∀ i (hi : i < (get_all_params net name).length)
       (hi' : i < vals.length),
       (load_weights net name filename fs st).params
         ((get_all_params net name).get ⟨i, hi⟩) = vals.get ⟨i, hi'⟩) ∧
     (∀ q, q ∉ get_all_params net name →
       (load_weights net name filename fs st).params q = st q)) ∧
    (pyEndsWith filename ".npz" = false →
     pyEndsWith filename ".pkl" = true →
     fs filename = some (.pklFile (.dict entries)) →
     pyLookup entries "param values" = some (.arrs vals) →
     (load_weights net name filename fs st).error = none ∧
     (load_weights net name filename fs st).opened = [filename] ∧
     (load_weights net name filename fs st).setCalled = true ∧
     (∀ i (hi : i < (get_all_params net name).length)
       (hi' : i < vals.length),
       (load_weights net name filename fs st).params
         ((get_all_params net name).get ⟨i, hi⟩) = vals.get ⟨i, hi'⟩) ∧
     (∀ q, q ∉ get_all_params net name →
       (load_weights net name filename fs st).params q = st q)) := by
  constructor
  · intro h1 h2 h3
    obtain ⟨hvlen, hlook⟩ := collectFrom_ok members members.length 0 vals h3
    have heq := load_weights_npz_eq net name filename fs st members vals
      h1 h2 h3
    obtain ⟨he, hget, hfr⟩ := set_all_ok net name vals st hnd hlen hsh
    rw [heq]
    refine ⟨hvlen, ?_, he, rfl, rfl, hget, hfr⟩
    intro j hj
    have hl := hlook j hj
    simpa using hl
  · intro h0 h1 h2 h3
    have heq := load_weights_pkl_eq net name filename fs st entries
      (.arrs vals) h0 h1 h2 h3
    obtain ⟨he, hget, hfr⟩ := set_all_ok net name vals st hnd hlen hsh
    rw [heq]
    exact ⟨he, rfl, rfl, hget, hfr⟩

/-- Witness for C1 at a concrete `.npz` and a concrete `.pkl` file. -/
theorem claim_C1_witness :
    ((load_weights netSmall "prob" "w.npz" fsSmall stSmall).error = none ∧
     (load_weights netSmall "prob" "w.npz" fsSmall stSmall).params
       ("fc", "W") = aW ∧
     (load_weights netSmall "prob" "w.npz" fsSmall stSmall).params
       ("fc", "b") = aB) ∧
    ((load_weights netSmall "prob" "w.pkl" fsSmall stSmall).error = none ∧
     (load_weights netSmall "prob" "w.pkl" fsSmall stSmall).params
       ("fc", "W") = aW ∧
     (load_weights netSmall "prob" "w.pkl" fsSmall stSmall).params
       ("fc", "b") = aB) := by
  have h2 : (get_all_params netSmall "prob").length = 2 := rfl
  have hsh : ∀ i (hi : i < (get_all_params netSmall "prob").length)
      (hi' : i < ([aW, aB] : List NDArray).length),
      (stSmall ((get_all_params netSmall "prob").get ⟨i, hi⟩)).shape =
        (([aW, aB] : List NDArray).get ⟨i, hi'⟩).shape := by
    intro i hi hi'
    cases i with
    | zero => rfl
    | succ j =>
        cases j with
        | zero => rfl
        | succ k =>
            rw [h2] at hi
            omega
  have hnpz := (claim_C1_load_by_extension netSmall "prob" "w.npz" fsSmall
    stSmall [("arr_0", aW), ("arr_1", aB)]
    [("param values", .arrs [aW, aB])] [aW, aB]
    (by decide) rfl hsh).1 rfl rfl rfl
  have hpkl := (claim_C1_load_by_extension netSmall "prob" "w.pkl" fsSmall
    stSmall [("arr_0", aW), ("arr_1", aB)]
    [("param values", .arrs [aW, aB])] [aW, aB]
    (by decide) rfl hsh).2 rfl rfl rfl rfl
  refine ⟨⟨hnpz.2.2.1, ?_, ?_⟩, ⟨hpkl.1, ?_, ?_⟩⟩
  · exact hnpz.2.2.2.2.2.1 0 (by decide) (by decide)
  · exact hnpz.2.2.2.2.2.1 1 (by decide) (by decide)
  · exact hpkl.2.2.2.1 0 (by decide) (by decide)
  · exact hpkl.2.2.2.1 1 (by decide) (by decide)

/-- Passing an unpickled dict directly to `set_all_param_values` raises
(an AttributeError when the `len` check passes, a count ValueError when it
does not) and leaves the parameter store unchanged. -/
theorem set_all_obj_dict (net : Net) (name : String)
    (entries : List (String × PyObj)) (st : PState) :
    ((set_all_param_values_obj net name (.dict entries) st).2).isSome
      = true ∧
    (set_all_param_values_obj net name (.dict entries) st).1 = st := by
  have hobj : set_all_param_values_obj net name (.dict entries) st =
      (if (get_all_params net name).length = entries.length
       then (st, some .attributeError)
       else (st, some (.valueErrorCount entries.length
         (get_all_params net name).length))) := rfl
  rw [hobj]
  constructor
  · split <;> rfl
  · split <;> rfl

/-- C2 (amended): `vgg19`, `vgg19_fc7_to_prob` and `vgg19_fc8_to_prob`
delegate their weight loading to `load_weights` (format dispatch by
extension, `.pkl` unwrapping the `'param values'` entry); `jeffrey_df`
instead unpickles the given file directly --- no extension dispatch --- and
passes the unpickled object itself to `set_all_param_values`, so for a
`.pkl` dict with a `'param values'` entry it raises and leaves the
parameters unchanged rather than assigning that entry's tensors. -/
theorem claim_C2_constructors_loading (n w h : Nat) (p : Option ℚ)
    (b : Option Nat) (fn : String) (fs : FileSys) (st : PState)
    (entries : List (String × PyObj)) (obj : PyObj) :
    (vgg19 n p (some fn) fs st =
      ⟨vgg19_net n p,
       (load_weights (vgg19_net n p) "prob" fn fs st).params,
       (load_weights (vgg19_net n p) "prob" fn fs st).error,
       (load_weights (vgg19_net n p) "prob" fn fs st).opened,
       (load_weights (vgg19_net n p) "prob" fn fs st).setCalled⟩) ∧
    (vgg19_fc7_to_prob n (some fn) fs st =
      ⟨vgg19_fc7_net n,
       (load_weights (vgg19_fc7_net n) "prob" fn fs st).params,
       (load_weights (vgg19_fc7_net n) "prob" fn fs st).error,
       (load_weights (vgg19_fc7_net n) "prob" fn fs st).opened,
       (load_weights (vgg19_fc7_net n) "prob" fn fs st).setCalled⟩) ∧
    (vgg19_fc8_to_prob n (some fn) fs st =
      ⟨vgg19_fc8_net n,
       (load_weights (vgg19_fc8_net n) "prob" fn fs st).params,
       (load_weights (vgg19_fc8_net n) "prob" fn fs st).error,
       (load_weights (vgg19_fc8_net n) "prob" fn fs st).opened,
       (load_weights (vgg19_fc8_net n) "prob" fn fs st).setCalled⟩) ∧
    (fs fn = some (.pklFile obj) →
      jeffrey_df w h n b (some fn) fs st =
        ⟨jeffrey_net w h n b,
         (set_all_param_values_obj (jeffrey_net w h n b) "31" obj st).1,
         (set_all_param_values_obj (jeffrey_net w h n b) "31" obj st).2,
         [fn], true⟩) ∧
    (fs fn = some (.pklFile (.dict entries)) →
      ((jeffrey_df w h n b (some fn) fs st).error).isSome = true ∧
      (jeffrey_df w h n b (some fn) fs st).params = st) := by
  refine ⟨rfl, rfl, rfl, jeffrey_df_pkl_eq w h n b fn fs st obj, ?_⟩
  intro hfs
  rw [jeffrey_df_pkl_eq w h n b fn fs st (.dict entries) hfs]
  obtain ⟨hs, hp⟩ := set_all_obj_dict (jeffrey_net w h n b) "31" entries st
  exact ⟨hs, hp⟩

/-- Witness for C2 (amended) at a concrete `.pkl` dict file. -/
theorem claim_C2_witness :
    ((jeffrey_df 4 4 1 none (some "w.pkl") fsJeff stJeff).error).isSome
      = true ∧
    (jeffrey_df 4 4 1 none (some "w.pkl") fsJeff stJeff).params = stJeff :=
  (claim_C2_constructors_loading 1 4 4 none none "w.pkl" fsJeff stJeff
    [("param values", .arrs valsJeff)]
    (.dict [("param values", .arrs valsJeff)])).2.2.2.2 rfl

/-- C2 counterexample: `jeffrey_df` on a `.pkl` file whose unpickled dict
holds matching tensors under `'param values'` raises a count-mismatch
ValueError (the dict itself reaches `set_all_param_values`) and assigns
nothing --- the claim's promised tensors are not loaded. -/
theorem claim_C2_counterexample :
    (jeffrey_df 4 4 1 none (some "w.pkl") fsJeff stJeff).error =
      some (.valueErrorCount 1 32) ∧
    (jeffrey_df 4 4 1 none (some "w.pkl") fsJeff stJeff).params
      ("20", "W") = ⟨[1], [0]⟩ ∧
    ((⟨[1], [0]⟩ : NDArray) ≠ ⟨[1], [5]⟩) ∧
    valsJeff.get? 0 = some ⟨[1], [5]⟩ := by
  refine ⟨rfl, rfl, by decide, rfl⟩

/-- C3 (amended): `load_weights` --- the loader the three VGG constructors
use --- rejects a filename whose suffix is neither `.npz` nor `.pkl` with a
NotImplementedError naming the filename, without consulting the file system
(no file opened), never reaching `set_all_param_values`, parameters
unchanged; `jeffrey_df`'s inline path performs no such dispatch (see the
counterexample). -/
theorem claim_C3_unknown_extension (net : Net) (name filename : String)
    (fs : FileSys) (st : PState)
    (h1 : pyEndsWith filename ".npz" = false)
    (h2 : pyEndsWith filename ".pkl" = false) :
    load_weights net name filename fs st =
      ⟨st, some (.notImplementedError
        ("Format of " ++ filename ++ " not known")), [], false⟩ :=
  load_weights_other net name filename fs st h1 h2

/-- Witness for C3 (amended) at the concrete filename `w.txt`. -/
theorem claim_C3_witness :
    load_weights netSmall "prob" "w.txt" fsSmall stSmall =
      ⟨stSmall, some (.notImplementedError "Format of w.txt not known"),
       [], false⟩ :=
  claim_C3_unknown_extension netSmall "prob" "w.txt" fsSmall stSmall rfl rfl

/-- C3 counterexample: asking `jeffrey_df` to load weights from `w.txt`
(suffix neither `.npz` nor `.pkl`) raises no NotImplementedError: the file
is opened, unpickled, and its arrays are assigned, changing the
parameters. -/
theorem claim_C3_counterexample :
    pyEndsWith "w.txt" ".npz" = false ∧
    pyEndsWith "w.txt" ".pkl" = false ∧
    (jeffrey_df 4 4 1 none (some "w.txt") fsJeff stJeff).error = none ∧
    (jeffrey_df 4 4 1 none (some "w.txt") fsJeff stJeff).opened =
      ["w.txt"] ∧
    (jeffrey_df 4 4 1 none (some "w.txt") fsJeff stJeff).params
      ("20", "W") = ⟨[1], [5]⟩ ∧
    stJeff ("20", "W") ≠ ⟨[1], [5]⟩ := by
  exact ⟨rfl, rfl, rfl, rfl, rfl, by decide⟩

/-- C7: a weight file whose parameter count or array shapes do not match the
graph's parameters makes the loading step fail with the exception produced
inside `set_all_param_values` (a count or shape ValueError), on the `.npz`
and `.pkl` paths of `load_weights` and on `jeffrey_df`'s inline path alike;
the loading code has no handler --- the resulting error is exactly the one
`set_all_param_values` raised, and the set call was reached. -/
theorem claim_C7_mismatch_fatal (net : Net) (name filename : String)
    (fs : FileSys) (st : PState) (members : List (String × NDArray))
    (entries : List (String × PyObj)) (vals : List NDArray)
    (w h n : Nat) (b : Option Nat) (fn : String) (fsj : FileSys)
    (stj : PState) (valsj : List NDArray)
    (hnd : (get_all_params net name).Nodup) :
    (pyEndsWith filename ".npz" = true →
     fs filename = some (.npzFile members) →
     collectNpz members = .ok vals →
     ¬((get_all_params net name).length = vals.length ∧
       ∀ i (hi : i < (get_all_params net name).length)
         (hi' : i < vals.length),
         (st ((get_all_params net name).get ⟨i, hi⟩)).shape =
           (vals.get ⟨i, hi'⟩).shape) →
     (load_weights net name filename fs st).error =
       (set_all_param_values net name vals st).2 ∧
     ((load_weights net name filename fs st).error).isSome = true ∧
     (load_weights net name filename fs st).setCalled = true) ∧
    (pyEndsWith filename ".npz" = false →
     pyEndsWith filename ".pkl" = true →
     fs filename = some (.pklFile (.dict entries)) →
     pyLookup entries "param values" = some (.arrs vals) →
     ¬((get_all_params net name).length = vals.length ∧
       ∀ i (hi : i < (get_all_params net name).length)
         (hi' : i < vals.length),
         (st ((get_all_params net name).get ⟨i, hi⟩)).shape =
           (vals.get ⟨i, hi'⟩).shape) →
     (load_weights net name filename fs st).error =
       (set_all_param_values net name vals st).2 ∧
     ((load_weights net name filename fs st).error).isSome = true ∧
     (load_weights net name filename fs st).setCalled = true) ∧
    (fsj fn = some (.pklFile (.arrs valsj)) →
     ¬((get_all_params (jeffrey_net w h n b) "31").length = valsj.length ∧
       ∀ i (hi : i < (get_all_params (jeffrey_net w h n b) "31").length)
         (hi' : i < valsj.length),
         (stj ((get_all_params (jeffrey_net w h n b) "31").get
           ⟨i, hi⟩)).shape = (valsj.get ⟨i, hi'⟩).shape) →
     (jeffrey_df w h n b (some fn) fsj stj).error =
       (set_all_param_values (jeffrey_net w h n b) "31" valsj stj).2 ∧
     ((jeffrey_df w h n b (some fn) fsj stj).error).isSome = true ∧
     (jeffrey_df w h n b (some fn) fsj stj).setCalled = true) := by
  refine ⟨?_, ?_, ?_⟩
  · intro h1 h2 h3 hmm
    rw [load_weights_npz_eq net name filename fs st members vals h1 h2 h3]
    exact ⟨rfl, set_all_mismatch net name vals st hnd hmm, rfl⟩
  · intro h0 h1 h2 h3 hmm
    rw [load_weights_pkl_eq net name filename fs st entries (.arrs vals)
      h0 h1 h2 h3]
    exact ⟨rfl, set_all_mismatch net name vals st hnd hmm, rfl⟩
  · intro hfs hmm
    rw [jeffrey_df_pkl_eq w h n b fn fsj stj (.arrs valsj) hfs]
    exact ⟨rfl, set_all_mismatch (jeffrey_net w h n b) "31" valsj stj
      (jeffrey_params_nodup w h n b) hmm, rfl⟩

/-- Witness for C7: count-mismatching weight files on all three paths. -/
theorem claim_C7_witness :
    (((load_weights netSmall "prob" "short.npz" fsSmall stSmall).error).isSome
      = true ∧
     (load_weights netSmall "prob" "short.npz" fsSmall stSmall).setCalled
      = true) ∧
    (((load_weights netSmall "prob" "short.pkl" fsSmall stSmall).error).isSome
      = true ∧
     (load_weights netSmall "prob" "short.pkl" fsSmall stSmall).setCalled
      = true) ∧
    (((jeffrey_df 4 4 1 none (some "short.pkl") fsJeff stJeff).error).isSome
      = true ∧
     (jeffrey_df 4 4 1 none (some "short.pkl") fsJeff stJeff).setCalled
      = true) := by
  have hnpz := (claim_C7_mismatch_fatal netSmall "prob" "short.npz" fsSmall
    stSmall [("arr_0", aW)] [("param values", .arrs [aW])] [aW]
    4 4 1 none "short.pkl" fsJeff stJeff [⟨[1], [5]⟩] (by decide)).1
    rfl rfl rfl (fun hc => absurd hc.1 (by decide))
  have hpkl := (claim_C7_mismatch_fatal netSmall "prob" "short.pkl" fsSmall
    stSmall [("arr_0", aW)] [("param values", .arrs [aW])] [aW]
    4 4 1 none "short.pkl" fsJeff stJeff [⟨[1], [5]⟩] (by decide)).2.1
    rfl rfl rfl rfl (fun hc => absurd hc.1 (by decide))
  have hjef := (claim_C7_mismatch_fatal netSmall "prob" "short.pkl" fsSmall
    stSmall [("arr_0", aW)] [("param values", .arrs [aW])] [aW]
    4 4 1 none "short.pkl" fsJeff stJeff [⟨[1], [5]⟩] (by decide)).2.2
    rfl (fun hc => absurd hc.1 (by decide))
  exact ⟨⟨hnpz.2.1, hnpz.2.2⟩, ⟨hpkl.2.1, hpkl.2.2⟩, hjef.2.1, hjef.2.2⟩

/-- C9: an `.npz` file whose member names are not exactly `arr_0` through
`arr_{N-1}` (some index below the member count is missing) makes
`load_weights` fail with a KeyError while collecting the arrays, before
`set_all_param_values` is called, leaving every parameter unchanged. -/
theorem claim_C9_npz_bad_names (net : Net) (name filename : String)
    (fs : FileSys) (st : PState) (members : List (String × NDArray))
    (h1 : pyEndsWith filename ".npz" = true)
    (h2 : fs filename = some (.npzFile members))
    (hbad : ¬ ∀ i, i < members.length →
      ("arr_" ++ toString i) ∈ members.map Prod.fst) :
    ∃ key, load_weights net name filename fs st =
      ⟨st, some (.keyError key), [filename], false⟩ := by
  push_neg at hbad
  obtain ⟨i, hi, hnotin⟩ := hbad
  have hnone : npzLookup members ("arr_" ++ toString i) = none :=
    (npzLookup_none members _).mpr hnotin
  obtain ⟨key, hkey⟩ := collectFrom_err members members.length 0
    ⟨i, hi, by simpa using hnone⟩
  exact ⟨key, load_weights_npz_err net name filename fs st members
    (.keyError key) h1 h2 hkey⟩

/-- Witness for C9 at a concrete `.npz` with a misnamed member. -/
theorem claim_C9_witness :
    ∃ key, load_weights netSmall "prob" "bad.npz" fsSmall stSmall =
      ⟨stSmall, some (.keyError key), ["bad.npz"], false⟩ :=
  claim_C9_npz_bad_names netSmall "prob" "bad.npz" fsSmall stSmall
    [("arr_0", aW), ("foo", aB)] rfl rfl (by decide)
